import Mathlib

/-!
Verification of the ethashb3 PoW data-lifecycle engine
(`consensus/ethashb3`, file `ethashb3.go` of vecno-node).

The Go source is shallowly embedded: machine `uint64` arithmetic is `Nat`
with explicit `% 2^64` where wrap-around matters, fallible operations
return `Except`/`Option`, file names are `List Char`, and the generator
functions (`generateCache`/`generateDataset`, defined in a sibling file
and treated by the spec as a deterministic black box) are abstracted as
function parameters.
-/

namespace EthashB3

/-- `2^64`, the modulus of Go `uint64` arithmetic. -/
def U64MOD : Nat := 2 ^ 64

/-- Go `uint64` subtraction `a - b` (wrapping), for `a b < U64MOD`. -/
def sub64 (a b : Nat) : Nat := (a + (U64MOD - b % U64MOD)) % U64MOD

/-- Go `uint64` addition `a + b` (wrapping). -/
def add64 (a b : Nat) : Nat := (a + b) % U64MOD

/-- `math.MaxInt32`, the `limit` argument passed by `MakeCache`/`MakeDataset`. -/
def maxInt32 : Nat := 2 ^ 31 - 1

/-- `algorithmRevision = 23`: the data structure version used for file naming. -/
def algorithmRevision : Nat := 23

/-- `dumpMagic = []uint32{0xbaddcafe, 0xfee1dead}`: the 2-word header used to
sanity check a data dump. -/
def dumpMagic : List Nat := [0xbaddcafe, 0xfee1dead]

/-- The deletion condition of the cleanup loop in `(*cache).generate` /
`(*dataset).generate`:
`e <= c.epoch-uint64(limit) || e > c.epoch+2`, in `uint64` arithmetic. -/
def staleFileCond (epoch limit e : Nat) : Bool :=
  decide (e ≤ sub64 epoch limit) || decide (add64 epoch 2 < e)

/-- The deletion predicate exactly as the spec words it — "more than
`retentionWindow` epochs behind `currentEpoch` or more than 2 epochs
ahead" — stated only to be compared against the source's
`staleFileCond`. -/
def claimStale (currentEpoch window e : Nat) : Bool :=
  decide (window < currentEpoch - e) || decide (2 < e - currentEpoch)

/-! ## Memory-mapped store: `memoryMap` -/

/-- Errors of the memory-map path: a generic I/O failure (open/map), or
`ErrInvalidDumpMagic` for a bad header. -/
inductive MMErr where
  | ioError
  | invalidDumpMagic
deriving DecidableEq, Repr

/-- Result of `memoryMap`: the returned word view (past the magic header) or
an error, together with whether the file handle and the memory map are left
open (on every error path the code closes the handle and unmaps first). -/
structure MMOut where
  result : Except MMErr (List Nat)
  fileOpenLeft : Bool
  mapLeft : Bool
deriving Repr

/-- `memoryMap(path, lock)` (lines 183–208): open read-only (`none` models a
failing `os.OpenFile`), map the file (an empty file cannot be mapped), check
that the first two words equal `dumpMagic` — on mismatch `Unmap`, `Close` and
return `ErrInvalidDumpMagic` — and return the view past the header.
Indexing `buffer[0]`, `buffer[1]` requires at least two words; theorems about
the mismatch path therefore assume `2 ≤ buf.length`. -/
def memoryMap (file : Option (List Nat)) : MMOut :=
  match file with
  | none => ⟨.error .ioError, false, false⟩
  | some buf =>
    if buf.length = 0 then ⟨.error .ioError, false, false⟩
    else if buf.take 2 = dumpMagic then ⟨.ok (buf.drop 2), true, true⟩
    else ⟨.error .invalidDumpMagic, false, false⟩

/-! ## File-name parsing (the `fmt.Sscanf` patterns of the cleanup loop)

The cleanup loop globs `{cache|full}-R{rev}*` and, per file, first tries the
current pattern `{tag}%d-%d-%s` (revision, epoch, seed) and then the legacy
pattern `{tag}%d-%s` (revision, seed).  `%d` is a nonempty run of decimal
digits; `%s` is a nonempty maximal run of non-whitespace characters.  The
little-endian host is modelled (`endian = ""`), matching the code's primary
path.  `tag` stands for the literal `"cache-R"` or `"full-R"`. -/

/-- The numeric value of a list of decimal digit characters. -/
def digitsToNat (ds : List Char) : Nat :=
  ds.foldl (fun n c => 10 * n + (c.toNat - 48)) 0

/-- Split a character list into its maximal leading run of decimal digits
and the remainder. -/
def digitsSplit : List Char → List Char × List Char
  | [] => ([], [])
  | c :: cs =>
    if c.isDigit then
      let p := digitsSplit cs
      (c :: p.1, p.2)
    else ([], c :: cs)

/-- Scan a `%d` verb: a nonempty leading digit run, returned as a number
together with the unconsumed remainder. -/
def scanNat : List Char → Option (Nat × List Char) := fun cs =>
  let p := digitsSplit cs
  if p.1 = [] then none else some (digitsToNat p.1, p.2)

/-- Match a literal part of a scan format against the input, returning the
unconsumed remainder. -/
def dropLit : List Char → List Char → Option (List Char)
  | [], cs => some cs
  | _ :: _, [] => none
  | l :: ls, c :: cs => if l = c then dropLit ls cs else none

/-- Scan a `%s` verb: the maximal leading run of non-whitespace characters
(with the remainder). -/
def scanToken (cs : List Char) : List Char × List Char :=
  cs.span (fun c => !c.isWhitespace)

/-- `Sscanf(name, tag ++ "%d-%d-%s")`: the current naming convention
`{tag}{revision}-{epoch}-{seed}`. -/
def parseCurrentName (tag name : List Char) : Option (Nat × Nat × List Char) :=
  match dropLit tag name with
  | none => none
  | some r1 =>
    match scanNat r1 with
    | none => none
    | some (ar, r2) =>
      match dropLit ['-'] r2 with
      | none => none
      | some r3 =>
        match scanNat r3 with
        | none => none
        | some (e, r4) =>
          match dropLit ['-'] r4 with
          | none => none
          | some r5 =>
            let s := scanToken r5
            if s.1 = [] then none else some (ar, e, s.1)

/-- `Sscanf(name, tag ++ "%d-%s")`: the legacy naming convention
`{tag}{revision}-{seed}`, without an embedded epoch. -/
def parseLegacyName (tag name : List Char) : Option (Nat × List Char) :=
  match dropLit tag name with
  | none => none
  | some r1 =>
    match scanNat r1 with
    | none => none
    | some (ar, r2) =>
      match dropLit ['-'] r2 with
      | none => none
      | some r3 =>
        let s := scanToken r3
        if s.1 = [] then none else some (ar, s.1)

/-- Whether one character list starts with another (the glob
`{tag}{rev}*` of the cleanup loop). -/
def leadsWith : List Char → List Char → Bool
  | [], _ => true
  | _ :: _, [] => false
  | p :: ps, c :: cs => p == c && leadsWith ps cs

/-- Whether `filepath.Glob(dir ++ "/" ++ tag ++ rev ++ "*")` selects `name`. -/
def globOK (tag : List Char) (rev : Nat) (name : List Char) : Bool :=
  leadsWith (tag ++ (Nat.repr rev).data) name

/-- The per-file decision of the cleanup loop (lines 412–439 for caches,
525–552 for datasets): only glob-selected files are examined; a file parsing
under the current convention is deleted exactly when `staleFileCond` holds of
its embedded epoch; otherwise a file parsing under the legacy convention is
deleted unconditionally; all other files are left alone. -/
def deleteFile (tag : List Char) (rev epoch limit : Nat) (name : List Char) :
    Bool :=
  if globOK tag rev name then
    match parseCurrentName tag name with
    | some (_, e, _) => staleFileCond epoch limit e
    | none => (parseLegacyName tag name).isSome
  else false

/-- The whole cleanup pass over a directory listing: the files that remain. -/
def cleanupPass (tag : List Char) (rev epoch limit : Nat)
    (names : List (List Char)) : List (List Char) :=
  names.filter (fun n => !deleteFile tag rev epoch limit n)

/-! ## Generation (`(*cache).generate`, `(*dataset).generate`)

The generator functions `generateCache`/`generateDataset` live in a sibling
source file and are deterministic in their inputs (the spec treats them as a
black-box pure function family); they are abstracted as parameters
`genC : epoch → epochLength → cache words` (folding in `seedHash` and the
size functions) and `genD : epoch → epochLength → cache → dataset words`.
Disk I/O is modelled by a `DiskCase`: the words of the file at the canonical
path (`none` when absent/unopenable) and whether `memoryMapAndGenerate`
fails. -/

/-- The disk environment a single `generate` call encounters. -/
structure DiskCase where
  file : Option (List Nat)
  createFails : Bool

/-- Result of a generation: the buffer the entity ends up with and the file
left at the canonical path. -/
structure CGenOut where
  buffer : List Nat
  fileAfter : Option (List Nat)

/-- Effect of the trailing cleanup loop on the canonical file of the current
epoch: its name embeds `c.epoch`, so it is removed exactly when
`staleFileCond epoch limit epoch` holds. -/
def cleanupCanon (epoch limit : Nat) (f : Option (List Nat)) :
    Option (List Nat) :=
  if staleFileCond epoch limit epoch then none else f

/-- The disk branch of `(*cache).generate` (lines 377–439): try `memoryMap`
on the canonical path — on success return that view, not running cleanup
(early return, line 399); otherwise `memoryMapAndGenerate` a fresh file
(writing `dumpMagic` then the generated words, renaming into place, and
re-mapping), falling back to a plain in-memory `generateCache` on error; the
cleanup loop then runs. -/
def cacheGenerateDisk (genC : Nat → Nat → List Nat)
    (epoch epochLength limit : Nat) (dc : DiskCase) : CGenOut :=
  match (memoryMap dc.file).result with
  | .ok data => ⟨data, dc.file⟩
  | .error _ =>
    let data := genC epoch epochLength
    if dc.createFails then
      ⟨data, cleanupCanon epoch limit dc.file⟩
    else
      ⟨data, cleanupCanon epoch limit (some (dumpMagic ++ data))⟩

/-- `(*cache).generate` body (inside `once.Do`): with no disk directory,
generate in memory; else run the disk branch. -/
def cacheGenerate (genC : Nat → Nat → List Nat)
    (epoch epochLength limit : Nat) (disk : Option DiskCase) : CGenOut :=
  match disk with
  | none => ⟨genC epoch epochLength, none⟩
  | some dc => cacheGenerateDisk genC epoch epochLength limit dc

/-- The disk branch of `(*dataset).generate` (lines 492–552): try
`memoryMap`; otherwise generate the cache in memory, `memoryMapAndGenerate`
the dataset file from it, falling back to in-memory `generateDataset` on
error; then the cleanup loop. -/
def datasetGenerateDisk (genC : Nat → Nat → List Nat)
    (genD : Nat → Nat → List Nat → List Nat)
    (epoch epochLength limit : Nat) (dc : DiskCase) : CGenOut :=
  match (memoryMap dc.file).result with
  | .ok data => ⟨data, dc.file⟩
  | .error _ =>
    let cacheWords := genC epoch epochLength
    let data := genD epoch epochLength cacheWords
    if dc.createFails then
      ⟨data, cleanupCanon epoch limit dc.file⟩
    else
      ⟨data, cleanupCanon epoch limit (some (dumpMagic ++ data))⟩

/-- A `dataset` entity: epoch metadata, the content, the `sync.Once` state
and the `done` atomic flag. -/
structure DatasetSt where
  epoch : Nat
  epochLength : Nat
  data : List Nat
  onceDone : Bool
  done : Bool

/-- `newDataset`: a fresh entity; nothing generated, `done` unset. -/
def newDataset (epoch epochLength : Nat) : DatasetSt :=
  ⟨epoch, epochLength, [], false, false⟩

/-- `(*dataset).generate`: a no-op once `once` has fired; otherwise run the
body — in-memory when `disk = none`, the disk branch otherwise — and, by the
deferred `d.done.Store(true)`, set `done` on completion of every path. -/
def datasetGenerate (genC : Nat → Nat → List Nat)
    (genD : Nat → Nat → List Nat → List Nat) (limit : Nat)
    (disk : Option DiskCase) (d : DatasetSt) : DatasetSt :=
  if d.onceDone then d
  else
    let out : CGenOut :=
      match disk with
      | none => ⟨genD d.epoch d.epochLength (genC d.epoch d.epochLength), none⟩
      | some dc => datasetGenerateDisk genC genD d.epoch d.epochLength limit dc
    { d with data := out.buffer, onceDone := true, done := true }

/-- `(*dataset).generated()`: reads the `done` flag. -/
def datasetGenerated (d : DatasetSt) : Bool := d.done

/-! ## The at-most-once generation gate (`sync.Once`, two concurrent callers)

`c.once.Do(fn)` lets exactly one caller run `fn`; a second concurrent caller
blocks until the first finishes. Two threads each calling `generate` on the
same entity are modelled as an interleaved transition system; `gen` is the
buffer one execution of the fill produces (the generator is deterministic). -/

/-- Program counter of one caller of `generate`. -/
inductive TPC where
  | start
  | waiting
  | filling
  | finished
deriving DecidableEq, Repr

/-- Shared state of an entity plus the two callers: `done`/`running` are the
`sync.Once` internals, `fillCount` counts executions of the fill closure,
`buf` is the entity's buffer. -/
structure OnceSt where
  done : Bool
  running : Bool
  fillCount : Nat
  buf : Option (List Nat)
  t1 : TPC
  t2 : TPC
deriving DecidableEq, Repr

/-- Both callers about to call `generate` on a fresh entity. -/
def onceInit : OnceSt := ⟨false, false, 0, none, .start, .start⟩

/-- One interleaving step: a caller entering `once.Do` either returns at once
(`fast`, gate already done), starts the fill (`enter`, gate free), or blocks
(`wait`, another caller filling); a filling caller completes the fill
(`fill`), and a blocked caller resumes once the gate is done (`wake`). -/
inductive OnceStep (gen : List Nat) : OnceSt → OnceSt → Prop where
  | enter1 (s : OnceSt) : s.t1 = .start → s.done = false → s.running = false →
      OnceStep gen s { s with running := true, t1 := .filling }
  | enter2 (s : OnceSt) : s.t2 = .start → s.done = false → s.running = false →
      OnceStep gen s { s with running := true, t2 := .filling }
  | wait1 (s : OnceSt) : s.t1 = .start → s.done = false → s.running = true →
      OnceStep gen s { s with t1 := .waiting }
  | wait2 (s : OnceSt) : s.t2 = .start → s.done = false → s.running = true →
      OnceStep gen s { s with t2 := .waiting }
  | fast1 (s : OnceSt) : s.t1 = .start → s.done = true →
      OnceStep gen s { s with t1 := .finished }
  | fast2 (s : OnceSt) : s.t2 = .start → s.done = true →
      OnceStep gen s { s with t2 := .finished }
  | fill1 (s : OnceSt) : s.t1 = .filling →
      OnceStep gen s { s with done := true, running := false,
                              fillCount := s.fillCount + 1,
                              buf := some gen, t1 := .finished }
  | fill2 (s : OnceSt) : s.t2 = .filling →
      OnceStep gen s { s with done := true, running := false,
                              fillCount := s.fillCount + 1,
                              buf := some gen, t2 := .finished }
  | wake1 (s : OnceSt) : s.t1 = .waiting → s.done = true →
      OnceStep gen s { s with t1 := .finished }
  | wake2 (s : OnceSt) : s.t2 = .waiting → s.done = true →
      OnceStep gen s { s with t2 := .finished }

/-- The states an execution of the two concurrent `generate` calls can
reach. -/
def OnceReachable (gen : List Nat) (s : OnceSt) : Prop :=
  Relation.ReflTransGen (OnceStep gen) onceInit s

/-- The inductive invariant of the gate: the fill has run at most once (and
exactly once iff the gate is done, the buffer then holding its output), a
filling caller holds the gate, at most one caller fills, and a caller
finishes only after the gate is done. -/
def OnceInv (gen : List Nat) (s : OnceSt) : Prop :=
  ((s.done = false ∧ s.fillCount = 0 ∧ s.buf = none) ∨
     (s.done = true ∧ s.fillCount = 1 ∧ s.buf = some gen)) ∧
  (s.t1 = .filling → s.running = true ∧ s.done = false) ∧
  (s.t2 = .filling → s.running = true ∧ s.done = false) ∧
  ¬(s.t1 = .filling ∧ s.t2 = .filling) ∧
  (s.t1 = .finished → s.done = true) ∧
  (s.t2 = .finished → s.done = true)

/-! ## Epoch-keyed LRU with prefetch (`lru[T]`, `(*lru[T]).get`)

An entity is what the factories `newCache`/`newDataset` build: a record of
the epoch and epoch length (the buffers being filled only later by
`generate`).  Values of the table are `Option Entity`, mirroring Go
pointers (`nil` = `none`).  `BasicLRU` is a model of the external
`lrupkg.BasicLRU` collaborator (go-ethereum `common/lru`, not part of this
repository): a bounded map with least-recently-used eviction. -/

/-- What the entity factories store: `(epoch, epochLength)`. -/
def Entity : Type := Nat × Nat
deriving DecidableEq, Repr

/-- The factory argument `new(epoch, epochLength)` of `newlru`. -/
def mkEntity (epoch epochLength : Nat) : Entity := (epoch, epochLength)

/-- Model of the external `lrupkg.BasicLRU`: capacity plus entries in
most-recently-used-first order. -/
structure BasicLRU (α : Type) where
  cap : Nat
  entries : List (Nat × α)

/-- `BasicLRU.Get`: look a key up and move it to the front. -/
def basicGet {α : Type} (l : BasicLRU α) (k : Nat) :
    Option α × BasicLRU α :=
  match l.entries.find? (fun p => p.1 == k) with
  | none => (none, l)
  | some p => (some p.2, ⟨l.cap, p :: l.entries.eraseP (fun q => q.1 == k)⟩)

/-- `BasicLRU.Add`: insert at the front, evicting beyond the capacity. -/
def basicAdd {α : Type} (l : BasicLRU α) (k : Nat) (v : α) : BasicLRU α :=
  ⟨l.cap, ((k, v) :: l.entries.eraseP (fun q => q.1 == k)).take l.cap⟩

/-- The `lru[T]` wrapper: the bounded table plus the single future slot
(`future` epoch number and `futureItem`, a possibly-nil pointer). -/
structure LruSt where
  cache : BasicLRU (Option Entity)
  future : Nat
  futureItem : Option Entity

/-- `newlru(maxItems, new)`: empty table, no future item. -/
def lruNew (maxItems : Nat) : LruSt := ⟨⟨maxItems, []⟩, 0, none⟩

/-- `(*lru[T]).get(epoch, epochLength)` (lines 312–346): key the table by
`epochLength + epoch`; on a miss take the future item if it is for this
epoch, else build a fresh entity, and add it; then, if
`epoch < maxEpoch-1` and the tracked future epoch differs from `epoch+1`,
build the entity for `epoch+1`, store it as the (single) future item and
return it as the second component, else return `none` there.  `maxEpoch` is
a constant of the sibling algorithm source file, kept as a parameter; the
comparison `epoch < maxEpoch-1` uses truncated subtraction exactly as Go
`uint64` does for a positive `maxEpoch`. -/
def lruGetItem (st : LruSt) (epoch epochLength : Nat) :
    Option Entity × LruSt :=
  let cacheKey := epochLength + epoch
  let g := basicGet st.cache cacheKey
  match g.1 with
  | some it => (it, { st with cache := g.2 })
  | none =>
    let it : Option Entity :=
      if st.future > 0 && st.future == epoch then st.futureItem
      else some (mkEntity epoch epochLength)
    (it, { st with cache := basicAdd st.cache cacheKey it })

/-- The future-slot phase of `(*lru[T]).get` (lines 332–346), after the
item phase. -/
def lruGet (maxEpoch : Nat) (st : LruSt) (epoch epochLength : Nat) :
    Option Entity × Option Entity × LruSt :=
  let p := lruGetItem st epoch epochLength
  let item := p.1
  let st1 := p.2
  let nextEpoch := epoch + 1
  let nextEpochLength := epochLength
  if epoch < maxEpoch - 1 && st1.future != nextEpoch then
    let fut := mkEntity nextEpoch nextEpochLength
    (item, some fut, { st1 with future := nextEpoch, futureItem := some fut })
  else
    (item, none, st1)

/-! ## Engine facade (`Config`, `New`, `Threads`, `SetThreads`) -/

/-- `Mode`: type and amount of PoW verification the engine makes. -/
inductive Mode where
  | ModeNormal
  | ModeShared
  | ModeTest
  | ModeFake
  | ModePoissonFake
  | ModeFullFake
deriving DecidableEq, Repr

/-- The configuration parameters of the ethashb3 (the fields the claims
touch; `int` fields are `Int`). -/
structure Config where
  CacheDir : String
  CachesInMem : Int
  CachesOnDisk : Int
  DatasetDir : String
  DatasetsInMem : Int
  DatasetsOnDisk : Int
  PowMode : Mode
deriving Repr

/-- An `EthashB3` engine: configuration, the two LRUs, the mining thread
count, and whether the `shared` pointer is non-nil. -/
structure EngineSt where
  config : Config
  caches : LruSt
  datasets : LruSt
  threads : Int
  hasShared : Bool

/-- `New(config, ...)` (lines 662–688): force a non-positive `CachesInMem`
to 1, build the two LRUs with the (normalized) in-memory counts as
capacities, and point `shared` at the process-wide instance iff the mode is
`ModeShared`. -/
def New (config : Config) : EngineSt :=
  let config :=
    if config.CachesInMem ≤ 0 then { config with CachesInMem := 1 }
    else config
  { config := config
    caches := lruNew config.CachesInMem.toNat
    datasets := lruNew config.DatasetsInMem.toNat
    threads := 0
    hasShared := config.PowMode == Mode.ModeShared }

/-- `(*EthashB3).Threads()`: the engine's own thread count. -/
def Threads (e : EngineSt) : Int := e.threads

/-- `(*EthashB3).SetThreads(threads)` (lines 843–858), acting on the pair
(instance, delegation target): when the instance's `shared` pointer is
non-nil the call is forwarded to the shared instance (the process-wide
`sharedEthash`, built by `init()` in `ModeNormal`, hence itself without a
`shared` pointer) and the instance is untouched; otherwise the instance's
own count is updated. -/
def SetThreads (inst shared : EngineSt) (threads : Int) :
    EngineSt × EngineSt :=
  if inst.hasShared then
    (inst,
      if shared.hasShared then shared else { shared with threads := threads })
  else
    ({ inst with threads := threads }, shared)

/-- The initial state satisfies the gate invariant. -/
lemma onceInv_init (gen : List Nat) : OnceInv gen onceInit := by
  simp [OnceInv, onceInit]

/-- Every interleaving step preserves the gate invariant. -/
lemma onceInv_step (gen : List Nat) {s s' : OnceSt}
    (hs : OnceInv gen s) (hstep : OnceStep gen s s') : OnceInv gen s' := by
  obtain ⟨hA, hB1, hB2, hC, hD1, hD2⟩ := hs
  cases hstep with
  | enter1 h1 h2 h3 =>
    refine ⟨hA, fun _ => ⟨rfl, h2⟩, ?_, ?_, ?_, hD2⟩
    · intro ht2
      rw [(hB2 ht2).1] at h3
      exact absurd h3 (by simp)
    · rintro ⟨-, ht2⟩
      rw [(hB2 ht2).1] at h3
      exact absurd h3 (by simp)
    · intro ht1
      exact absurd ht1 (by simp)
  | enter2 h1 h2 h3 =>
    refine ⟨hA, ?_, fun _ => ⟨rfl, h2⟩, ?_, hD1, ?_⟩
    · intro ht1
      rw [(hB1 ht1).1] at h3
      exact absurd h3 (by simp)
    · rintro ⟨ht1, -⟩
      rw [(hB1 ht1).1] at h3
      exact absurd h3 (by simp)
    · intro ht2
      exact absurd ht2 (by simp)
  | wait1 h1 h2 h3 =>
    refine ⟨hA, ?_, hB2, ?_, ?_, hD2⟩
    · intro ht1
      exact absurd ht1 (by simp)
    · rintro ⟨ht1, -⟩
      exact absurd ht1 (by simp)
    · intro ht1
      exact absurd ht1 (by simp)
  | wait2 h1 h2 h3 =>
    refine ⟨hA, hB1, ?_, ?_, hD1, ?_⟩
    · intro ht2
      exact absurd ht2 (by simp)
    · rintro ⟨-, ht2⟩
      exact absurd ht2 (by simp)
    · intro ht2
      exact absurd ht2 (by simp)
  | fast1 h1 h2 =>
    refine ⟨hA, ?_, hB2, ?_, fun _ => h2, hD2⟩
    · intro ht1
      exact absurd ht1 (by simp)
    · rintro ⟨ht1, -⟩
      exact absurd ht1 (by simp)
  | fast2 h1 h2 =>
    refine ⟨hA, hB1, ?_, ?_, hD1, fun _ => h2⟩
    · intro ht2
      exact absurd ht2 (by simp)
    · rintro ⟨-, ht2⟩
      exact absurd ht2 (by simp)
  | fill1 h1 =>
    have hdone : s.done = false := (hB1 h1).2
    have hcnt : s.fillCount = 0 := by
      rcases hA with ⟨-, hc, -⟩ | ⟨hd, -, -⟩
      · exact hc
      · rw [hdone] at hd
        exact absurd hd (by simp)
    refine ⟨Or.inr ⟨rfl, by simp [hcnt], rfl⟩, ?_, ?_, ?_, fun _ => rfl,
      fun _ => rfl⟩
    · intro ht1
      exact absurd ht1 (by simp)
    · intro ht2
      exact absurd ⟨h1, ht2⟩ hC
    · rintro ⟨ht1, -⟩
      exact absurd ht1 (by simp)
  | fill2 h1 =>
    have hdone : s.done = false := (hB2 h1).2
    have hcnt : s.fillCount = 0 := by
      rcases hA with ⟨-, hc, -⟩ | ⟨hd, -, -⟩
      · exact hc
      · rw [hdone] at hd
        exact absurd hd (by simp)
    refine ⟨Or.inr ⟨rfl, by simp [hcnt], rfl⟩, ?_, ?_, ?_, fun _ => rfl,
      fun _ => rfl⟩
    · intro ht1
      exact absurd ⟨ht1, h1⟩ hC
    · intro ht2
      exact absurd ht2 (by simp)
    · rintro ⟨-, ht2⟩
      exact absurd ht2 (by simp)
  | wake1 h1 h2 =>
    refine ⟨hA, ?_, hB2, ?_, fun _ => h2, hD2⟩
    · intro ht1
      exact absurd ht1 (by simp)
    · rintro ⟨ht1, -⟩
      exact absurd ht1 (by simp)
  | wake2 h1 h2 =>
    refine ⟨hA, hB1, ?_, ?_, hD1, fun _ => h2⟩
    · intro ht2
      exact absurd ht2 (by simp)
    · rintro ⟨-, ht2⟩
      exact absurd ht2 (by simp)

/-- Every reachable state satisfies the gate invariant. -/
lemma onceInv_reachable (gen : List Nat) {s : OnceSt}
    (h : OnceReachable gen s) : OnceInv gen s := by
  induction h with
  | refl => exact onceInv_init gen
  | tail _ hstep ih => exact onceInv_step gen ih hstep

/-! ## Claim theorems -/

/-- C6: the dataset readiness flag is set only on completion — `generated()`
is `false` on a fresh dataset, before any `generate` call has completed, and
`true` after a `generate` call returns, on every path (in-memory-only
generation with `disk = none`, disk load, disk-failure fallback). -/
theorem dataset_generated_only_on_completion
    (genC : Nat → Nat → List Nat) (genD : Nat → Nat → List Nat → List Nat)
    (limit epoch epochLength : Nat) (disk : Option DiskCase) :
    datasetGenerated (newDataset epoch epochLength) = false ∧
    datasetGenerated
      (datasetGenerate genC genD limit disk (newDataset epoch epochLength))
        = true := by
  constructor
  · rfl
  · simp [datasetGenerated, datasetGenerate, newDataset]

/-- C10: `New` normalizes a non-positive `CachesInMem` to 1 without failing,
so the in-memory cache LRU always has capacity at least 1. -/
theorem New_normalizes_cachesInMem (c : Config) (h : c.CachesInMem ≤ 0) :
    (New c).config.CachesInMem = 1 ∧ 1 ≤ (New c).caches.cache.cap := by
  constructor
  · simp [New, h]
  · simp [New, lruNew, h]

/-- Witness for C10 at a concrete configuration with `CachesInMem = 0`. -/
theorem New_normalizes_cachesInMem_witness :
    (New ⟨"", 0, 0, "", 1, 0, Mode.ModeNormal⟩).config.CachesInMem = 1 ∧
    1 ≤ (New ⟨"", 0, 0, "", 1, 0, Mode.ModeNormal⟩).caches.cache.cap :=
  New_normalizes_cachesInMem ⟨"", 0, 0, "", 1, 0, Mode.ModeNormal⟩ (by decide)

/-- C8: on an instance whose `shared` pointer is non-nil, `SetThreads`
leaves the instance's own `threads` field unchanged (a subsequent
`Threads()` returns its previous value) and applies the update to the
shared instance instead. -/
theorem setThreads_shared_delegates (inst shared : EngineSt) (n : Int)
    (hi : inst.hasShared = true) (hs : shared.hasShared = false) :
    Threads (SetThreads inst shared n).1 = Threads inst ∧
    Threads (SetThreads inst shared n).2 = n := by
  constructor
  · simp [SetThreads, hi]
  · simp [SetThreads, Threads, hi, hs]

/-- Witness for C8 at concrete engines: the shared-mode instance keeps its
own thread count 5 while the shared instance receives 7. -/
theorem setThreads_shared_delegates_witness :
    Threads (SetThreads
        ⟨⟨"", 1, 0, "", 1, 0, Mode.ModeShared⟩, lruNew 1, lruNew 1, 5, true⟩
        ⟨⟨"", 3, 0, "", 1, 0, Mode.ModeNormal⟩, lruNew 3, lruNew 1, 0, false⟩
        7).1 = 5 ∧
    Threads (SetThreads
        ⟨⟨"", 1, 0, "", 1, 0, Mode.ModeShared⟩, lruNew 1, lruNew 1, 5, true⟩
        ⟨⟨"", 3, 0, "", 1, 0, Mode.ModeNormal⟩, lruNew 3, lruNew 1, 0, false⟩
        7).2 = 7 :=
  setThreads_shared_delegates
    ⟨⟨"", 1, 0, "", 1, 0, Mode.ModeShared⟩, lruNew 1, lruNew 1, 5, true⟩
    ⟨⟨"", 3, 0, "", 1, 0, Mode.ModeNormal⟩, lruNew 3, lruNew 1, 0, false⟩
    7 rfl rfl

/-- C9: the stale-file lower bound underflows for early epochs — whenever
the entity's epoch is below the `limit` (e.g. `MakeCache`/`MakeDataset`
pass `limit = maxInt32 = 2^31-1`), `c.epoch - uint64(limit)` wraps modulo
`2^64` and the deletion predicate holds for every epoch inside the intended
retention window, so the cleanup deletes even the file just generated for
the current epoch (`fileAfter = none` after a fresh generation). -/
theorem stale_lower_bound_underflows
    (genC : Nat → Nat → List Nat) (epoch epochLength limit e : Nat)
    (h1 : epoch < limit) (h2 : limit + 2 ≤ U64MOD) (h3 : e ≤ epoch + 2) :
    staleFileCond epoch limit e = true ∧
    (cacheGenerateDisk genC epoch epochLength limit
        ⟨none, false⟩).fileAfter = none := by
  have hlt : limit < U64MOD := by omega
  have hsub : sub64 epoch limit = epoch + (U64MOD - limit) := by
    unfold sub64
    rw [Nat.mod_eq_of_lt hlt, Nat.mod_eq_of_lt (by omega)]
  have hcond : staleFileCond epoch limit e = true := by
    simp only [staleFileCond, hsub, Bool.or_eq_true, decide_eq_true_eq]
    left
    omega
  refine ⟨hcond, ?_⟩
  have hcur : staleFileCond epoch limit epoch = true := by
    simp only [staleFileCond, hsub, Bool.or_eq_true, decide_eq_true_eq]
    left
    omega
  simp [cacheGenerateDisk, memoryMap, cleanupCanon, hcur]

/-- Witness for C9: `MakeCache`'s `limit = maxInt32` at epoch 100 deletes
the freshly generated file for epoch 100 itself. -/
theorem stale_lower_bound_underflows_witness :
    staleFileCond 100 maxInt32 100 = true ∧
    (cacheGenerateDisk (fun _ _ => [1, 2]) 100 32000 maxInt32
        ⟨none, false⟩).fileAfter = none :=
  stale_lower_bound_underflows (fun _ _ => [1, 2]) 100 32000 maxInt32 100
    (by decide) (by decide) (by decide)

/-- C4: all disk-path failures during generation degrade to in-memory
generation — when both loading the existing file and creating-and-filling a
fresh one fail, the cache/dataset buffer is exactly the in-memory generator
output, and the dataset still reaches the `done = true` ready state. -/
theorem generate_disk_failures_fall_back
    (genC : Nat → Nat → List Nat) (genD : Nat → Nat → List Nat → List Nat)
    (epoch epochLength limit : Nat) (dc : DiskCase)
    (hload : ∃ er, (memoryMap dc.file).result = .error er)
    (hcreate : dc.createFails = true) :
    (cacheGenerateDisk genC epoch epochLength limit dc).buffer
        = genC epoch epochLength ∧
    (datasetGenerateDisk genC genD epoch epochLength limit dc).buffer
        = genD epoch epochLength (genC epoch epochLength) ∧
    (datasetGenerate genC genD limit (some dc)
        (newDataset epoch epochLength)).done = true ∧
    (datasetGenerate genC genD limit (some dc)
        (newDataset epoch epochLength)).data
        = genD epoch epochLength (genC epoch epochLength) := by
  obtain ⟨er, her⟩ := hload
  refine ⟨?_, ?_, ?_, ?_⟩
  · simp [cacheGenerateDisk, her, hcreate]
  · simp [datasetGenerateDisk, her, hcreate]
  · simp [datasetGenerate, newDataset]
  · simp [datasetGenerate, newDataset, datasetGenerateDisk, her, hcreate]

/-- Witness for C4: a corrupt file (bad magic) plus a failing create still
yields the in-memory generated buffers and a ready dataset. -/
theorem generate_disk_failures_fall_back_witness :
    (cacheGenerateDisk (fun _ _ => [5, 6]) 9 32000 2
        ⟨some [1, 2, 3], true⟩).buffer = [5, 6] ∧
    (datasetGenerateDisk (fun _ _ => [5, 6]) (fun _ _ c => 0 :: c) 9 32000 2
        ⟨some [1, 2, 3], true⟩).buffer = [0, 5, 6] ∧
    (datasetGenerate (fun _ _ => [5, 6]) (fun _ _ c => 0 :: c) 2
        (some ⟨some [1, 2, 3], true⟩) (newDataset 9 32000)).done = true ∧
    (datasetGenerate (fun _ _ => [5, 6]) (fun _ _ c => 0 :: c) 2
        (some ⟨some [1, 2, 3], true⟩) (newDataset 9 32000)).data
        = [0, 5, 6] :=
  generate_disk_failures_fall_back (fun _ _ => [5, 6]) (fun _ _ c => 0 :: c)
    9 32000 2 ⟨some [1, 2, 3], true⟩
    ⟨MMErr.invalidDumpMagic, rfl⟩ rfl

/-- C5: `memoryMap` succeeds only when the first two words equal
`dumpMagic`; on a mismatched header it fails with the invalid-dump-magic
error after unmapping and closing the handle it opened; the caller's
regeneration (`cacheGenerateDisk` with a working create) then leaves a
file with a valid header at the same path, on which `memoryMap`
succeeds with the generated words. -/
theorem memoryMap_validates_magic
    (buf : List Nat) (hlen : 2 ≤ buf.length) (hbad : buf.take 2 ≠ dumpMagic)
    (genC : Nat → Nat → List Nat) (epoch epochLength limit : Nat)
    (hw : 1 ≤ limit) (hle : limit ≤ epoch) (hov : epoch + 2 < U64MOD) :
    (memoryMap (some buf)).result = .error .invalidDumpMagic ∧
    (memoryMap (some buf)).fileOpenLeft = false ∧
    (memoryMap (some buf)).mapLeft = false ∧
    (∀ f data, (memoryMap f).result = .ok data →
        ∃ b, f = some b ∧ b.take 2 = dumpMagic ∧ data = b.drop 2) ∧
    (cacheGenerateDisk genC epoch epochLength limit
        ⟨some buf, false⟩).fileAfter
      = some (dumpMagic ++ genC epoch epochLength) ∧
    (memoryMap (some (dumpMagic ++ genC epoch epochLength))).result
      = .ok (genC epoch epochLength) := by
  have hne : buf.length ≠ 0 := by omega
  have hmm : memoryMap (some buf) = ⟨.error .invalidDumpMagic, false, false⟩ := by
    simp [memoryMap, hne, hbad]
  have hcur : staleFileCond epoch limit epoch = false := by
    have hsub : sub64 epoch limit = epoch - limit := by
      unfold sub64
      rw [Nat.mod_eq_of_lt (by omega : limit < U64MOD)]
      have h : epoch + (U64MOD - limit) = U64MOD + (epoch - limit) := by omega
      rw [h, Nat.add_mod_left, Nat.mod_eq_of_lt (by omega)]
    have hadd : add64 epoch 2 = epoch + 2 :=
      Nat.mod_eq_of_lt hov
    simp only [staleFileCond, hsub, hadd, Bool.or_eq_false_iff,
      decide_eq_false_iff_not]
    omega
  refine ⟨by rw [hmm], by rw [hmm], by rw [hmm], ?_, ?_, ?_⟩
  · intro f data h
    match f with
    | none => simp [memoryMap] at h
    | some b =>
      refine ⟨b, rfl, ?_⟩
      by_cases h0 : b.length = 0
      · simp [memoryMap, h0] at h
      · by_cases hm : b.take 2 = dumpMagic
        · simp [memoryMap, h0, hm] at h
          exact ⟨hm, h.symm⟩
        · simp [memoryMap, h0, hm] at h
  · simp [cacheGenerateDisk, hmm, cleanupCanon, hcur]
  · have ht : (dumpMagic ++ genC epoch epochLength).take 2 = dumpMagic := rfl
    have hd : (dumpMagic ++ genC epoch epochLength).drop 2
        = genC epoch epochLength := rfl
    simp [memoryMap, ht, hd, dumpMagic]

/-- Witness for C5: a file `[1,2,3]` (wrong header) fails with the magic
error, resources released, and regeneration at epoch 9 with window 2
produces a readable file with the generated words `[5,6]`. -/
theorem memoryMap_validates_magic_witness :
    (memoryMap (some [1, 2, 3])).result = .error .invalidDumpMagic ∧
    (memoryMap (some [1, 2, 3])).fileOpenLeft = false ∧
    (memoryMap (some [1, 2, 3])).mapLeft = false ∧
    (∀ f data, (memoryMap f).result = .ok data →
        ∃ b, f = some b ∧ b.take 2 = dumpMagic ∧ data = b.drop 2) ∧
    (cacheGenerateDisk (fun _ _ => [5, 6]) 9 32000 2
        ⟨some [1, 2, 3], false⟩).fileAfter
      = some (dumpMagic ++ [5, 6]) ∧
    (memoryMap (some (dumpMagic ++ [5, 6]))).result = .ok [5, 6] :=
  memoryMap_validates_magic [1, 2, 3] (by decide) (by decide)
    (fun _ _ => [5, 6]) 9 32000 2 (by decide) (by decide) (by decide)

/-- The item phase of `get` never touches the future-slot fields. -/
lemma lruGetItem_preserves_future (st : LruSt) (epoch epochLength : Nat) :
    (lruGetItem st epoch epochLength).2.future = st.future ∧
    (lruGetItem st epoch epochLength).2.futureItem = st.futureItem := by
  rcases h : (basicGet st.cache (epochLength + epoch)).1 with _ | it <;>
    simp [lruGetItem, h]

/-- C2: `lru.get(epoch, epochLength)` constructs, stores and returns a new
future entity for `epoch+1` (with the same epoch length) exactly when
`epoch` is below `maxEpoch - 1` and the tracked future epoch differs from
`epoch+1` — including when `epoch+1` is less than the tracked future epoch
(the epoch-length-shrink case) — and returns `none` as the future
otherwise, leaving the tracked future epoch unchanged. -/
theorem lru_get_future_replacement
    (maxEpoch : Nat) (st : LruSt) (epoch epochLength : Nat) :
    ((epoch < maxEpoch - 1 ∧ st.future ≠ epoch + 1) →
        (lruGet maxEpoch st epoch epochLength).2.1
            = some (mkEntity (epoch + 1) epochLength) ∧
        (lruGet maxEpoch st epoch epochLength).2.2.future = epoch + 1 ∧
        (lruGet maxEpoch st epoch epochLength).2.2.futureItem
            = some (mkEntity (epoch + 1) epochLength)) ∧
    (¬(epoch < maxEpoch - 1 ∧ st.future ≠ epoch + 1) →
        (lruGet maxEpoch st epoch epochLength).2.1 = none ∧
        (lruGet maxEpoch st epoch epochLength).2.2.future = st.future ∧
        (lruGet maxEpoch st epoch epochLength).2.2.futureItem
            = st.futureItem) := by
  obtain ⟨hfut, hfutI⟩ := lruGetItem_preserves_future st epoch epochLength
  constructor
  · rintro ⟨h1, h2⟩
    have hc : (decide (epoch < maxEpoch - 1) &&
        ((lruGetItem st epoch epochLength).2.future != epoch + 1)) = true := by
      rw [hfut]
      simp [h1, h2]
    simp [lruGet, hc]
  · intro h
    have hc : (decide (epoch < maxEpoch - 1) &&
        ((lruGetItem st epoch epochLength).2.future != epoch + 1)) = false := by
      rw [hfut]
      by_cases hA : epoch < maxEpoch - 1
      · have hB : st.future = epoch + 1 := by
          by_contra hB
          exact h ⟨hA, hB⟩
        simp [hB]
      · simp [hA]
    simp only [lruGet]
    rw [hc]
    simp [hfut, hfutI]

/-- Witness for C2, in the epoch-length-shrink case: the tracked future
epoch is 5 but epoch 2 is requested, so the future slot is recomputed for
epoch 3 with the requested length. -/
theorem lru_get_future_replacement_witness :
    (lruGet 2048 ⟨⟨3, []⟩, 5, some (mkEntity 5 16000)⟩ 2 16000).2.1
        = some (mkEntity 3 16000) ∧
    (lruGet 2048 ⟨⟨3, []⟩, 5, some (mkEntity 5 16000)⟩ 2 16000).2.2.future
        = 3 ∧
    (lruGet 2048 ⟨⟨3, []⟩, 5, some (mkEntity 5 16000)⟩ 2 16000).2.2.futureItem
        = some (mkEntity 3 16000) :=
  (lru_get_future_replacement 2048 ⟨⟨3, []⟩, 5, some (mkEntity 5 16000)⟩
    2 16000).1 ⟨by decide, by decide⟩

/-- C3: the at-most-once generation gate — in every reachable interleaving
of two concurrent `generate` calls on one entity the fill has run at most
once, a caller returns only after the gate is done with the buffer filled
(the second caller blocks until then), and when both callers have returned
the fill ran exactly once and both observe the same generated buffer. -/
theorem generate_at_most_once (gen : List Nat) (s : OnceSt)
    (h : OnceReachable gen s) :
    s.fillCount ≤ 1 ∧
    (s.t1 = .finished → s.done = true ∧ s.buf = some gen) ∧
    (s.t2 = .finished → s.done = true ∧ s.buf = some gen) ∧
    (s.t1 = .finished → s.t2 = .finished →
        s.fillCount = 1 ∧ s.buf = some gen) := by
  obtain ⟨hA, hB1, hB2, hC, hD1, hD2⟩ := onceInv_reachable gen h
  have hdone : s.done = true → s.fillCount = 1 ∧ s.buf = some gen := by
    intro hd
    rcases hA with ⟨hd', -, -⟩ | ⟨-, hc, hb⟩
    · rw [hd] at hd'
      exact absurd hd' (by simp)
    · exact ⟨hc, hb⟩
  refine ⟨?_, ?_, ?_, ?_⟩
  · rcases hA with ⟨-, hc, -⟩ | ⟨-, hc, -⟩ <;> omega
  · intro ht1
    exact ⟨hD1 ht1, (hdone (hD1 ht1)).2⟩
  · intro ht2
    exact ⟨hD2 ht2, (hdone (hD2 ht2)).2⟩
  · intro ht1 _
    exact hdone (hD1 ht1)

/-- Witness for C3: a concrete complete interleaving — caller 1 enters and
fills, caller 2 then passes the done gate — reaches the final state with
exactly one fill and the shared buffer. -/
theorem generate_at_most_once_witness :
    (⟨true, false, 1, some [7], TPC.finished, TPC.finished⟩ : OnceSt).fillCount
        = 1 ∧
    (⟨true, false, 1, some [7], TPC.finished, TPC.finished⟩ : OnceSt).buf
        = some [7] := by
  have h1 : OnceStep [7] onceInit ⟨false, true, 0, none, .filling, .start⟩ :=
    OnceStep.enter1 onceInit rfl rfl rfl
  have h2 : OnceStep [7] ⟨false, true, 0, none, .filling, .start⟩
      ⟨true, false, 1, some [7], .finished, .start⟩ :=
    OnceStep.fill1 _ rfl
  have h3 : OnceStep [7] ⟨true, false, 1, some [7], .finished, .start⟩
      ⟨true, false, 1, some [7], .finished, .finished⟩ :=
    OnceStep.fast2 _ rfl rfl
  have hr : OnceReachable [7]
      ⟨true, false, 1, some [7], .finished, .finished⟩ :=
    Relation.ReflTransGen.tail
      (Relation.ReflTransGen.tail
        (Relation.ReflTransGen.tail Relation.ReflTransGen.refl h1) h2) h3
  exact (generate_at_most_once [7] _ hr).2.2.2 rfl rfl

/-- C7: legacy-named files are deleted unconditionally — a glob-selected
file whose name fails the current pattern but matches the legacy pattern is
removed whatever the current epoch and retention limit are, while a file
matching neither pattern is left alone. -/
theorem legacy_files_deleted (tag : List Char) (rev epoch limit : Nat)
    (name : List Char) :
    (globOK tag rev name = true → parseCurrentName tag name = none →
        (parseLegacyName tag name).isSome = true →
        cleanupPass tag rev epoch limit [name] = []) ∧
    (parseCurrentName tag name = none → parseLegacyName tag name = none →
        cleanupPass tag rev epoch limit [name] = [name]) := by
  constructor
  · intro hg hc hl
    simp [cleanupPass, deleteFile, hg, hc, hl]
  · intro hc hl
    by_cases hg : globOK tag rev name = true
    · simp [cleanupPass, deleteFile, hg, hc, hl]
    · simp [cleanupPass, deleteFile, hg]

/-- Witness for C7: the legacy-named `cache-R23-deadbeef` is removed even
at current epoch 0 with a huge retention limit, while `cache-R23.tmp1`
(matching neither pattern) survives. -/
theorem legacy_files_deleted_witness :
    cleanupPass "cache-R".data 23 0 2147483647
        ["cache-R23-deadbeef".data] = [] ∧
    cleanupPass "full-R".data 23 0 2147483647
        ["full-R23.tmp1".data] = ["full-R23.tmp1".data] :=
  ⟨(legacy_files_deleted "cache-R".data 23 0 2147483647
      "cache-R23-deadbeef".data).1 (by decide) (by decide) (by decide),
   (legacy_files_deleted "full-R".data 23 0 2147483647
      "full-R23.tmp1".data).2 (by decide) (by decide)⟩

/-- C1 counterexample: at current epoch 10 with retention window 2, the
file for epoch 8 is exactly 2 epochs behind — not "more than
`retentionWindow` epochs behind" and not more than 2 ahead, so the claim
says it remains — yet the code's deletion condition `e <= epoch-limit`
holds and the cleanup deletes it. -/
theorem cleanup_exact_window_cex :
    claimStale 10 2 8 = false ∧
    staleFileCond 10 2 8 = true ∧
    cleanupPass "cache-R".data 23 10 2 ["cache-R23-8-deadbeef".data]
        = [] := by
  refine ⟨by decide, by decide, by decide⟩

/-- C1 amended: with disk enabled, the cleanup deletes exactly those
current-convention files whose embedded epoch `e` satisfies
`e ≤ currentEpoch - retentionWindow` in wrapping `uint64` arithmetic —
i.e., when no wrap occurs, files at least `retentionWindow` epochs behind —
or `e > currentEpoch + 2`; the spec's example directory
{E-5, E-1, E, E+1, E+3} with window 2 at E = 10 still leaves exactly
{E-1, E, E+1}. -/
theorem cleanup_retention_window
    (tag : List Char) (rev E w : Nat) (name : List Char) (ar e : Nat)
    (s : List Char)
    (hg : globOK tag rev name = true)
    (hp : parseCurrentName tag name = some (ar, e, s)) :
    (cleanupPass tag rev E w [name]
        = if staleFileCond E w e = true then [] else [name]) ∧
    (w ≤ E → E + 2 < U64MOD → e < U64MOD →
        (staleFileCond E w e = true ↔ (e + w ≤ E ∨ E + 2 < e))) ∧
    cleanupPass "cache-R".data 23 10 2
        ["cache-R23-5-aa".data, "cache-R23-9-aa".data,
         "cache-R23-10-aa".data, "cache-R23-11-aa".data,
         "cache-R23-13-aa".data]
      = ["cache-R23-9-aa".data, "cache-R23-10-aa".data,
         "cache-R23-11-aa".data] := by
  refine ⟨?_, ?_, by decide⟩
  · cases hst : staleFileCond E w e <;>
      simp [cleanupPass, deleteFile, hg, hp, hst]
  · intro h1 h2 h3
    have hsub : sub64 E w = E - w := by
      unfold sub64
      rw [Nat.mod_eq_of_lt (by omega : w < U64MOD)]
      have h : E + (U64MOD - w) = U64MOD + (E - w) := by omega
      rw [h, Nat.add_mod_left, Nat.mod_eq_of_lt (by omega)]
    have hadd : add64 E 2 = E + 2 := Nat.mod_eq_of_lt h2
    simp only [staleFileCond, hsub, hadd, Bool.or_eq_true, decide_eq_true_eq]
    omega

/-- Witness for C1 amended: the file for epoch 97 at current epoch 100 with
window 2 is at least 2 epochs behind (`97 + 2 ≤ 100` holds, so it is
deleted), evaluating all three conjuncts concretely. -/
theorem cleanup_retention_window_witness :
    (cleanupPass "cache-R".data 23 100 2 ["cache-R23-97-aa".data]
        = if staleFileCond 100 2 97 = true then []
          else ["cache-R23-97-aa".data]) ∧
    (2 ≤ 100 → 100 + 2 < U64MOD → 97 < U64MOD →
        (staleFileCond 100 2 97 = true ↔ (97 + 2 ≤ 100 ∨ 100 + 2 < 97))) ∧
    cleanupPass "cache-R".data 23 10 2
        ["cache-R23-5-aa".data, "cache-R23-9-aa".data,
         "cache-R23-10-aa".data, "cache-R23-11-aa".data,
         "cache-R23-13-aa".data]
      = ["cache-R23-9-aa".data, "cache-R23-10-aa".data,
         "cache-R23-11-aa".data] :=
  cleanup_retention_window "cache-R".data 23 100 2 "cache-R23-97-aa".data
    23 97 "aa".data (by decide) (by decide)

end EthashB3
